import Mathlib

/-!
# Verification of `physalia.third_party.monsoon_async.MonsoonReader`

A shallow embedding of the asynchronous Monsoon sampling code
(`src/physalia/third_party/monsoon_async.py`) together with proofs about
the rate-conversion accumulator (`offset`), the `need` computation, the
multi-emit averaging branch, and the error-handling / cleanup structure of
`MonsoonReader._take_samples`.

Raw current samples are modelled as rationals; Python integers are `Int`.
External collaborators (the Monsoon device object, wall-clock time, the
stop `Event`, and the `MonsoonData` constructor) are modelled as an
environment of response streams, so one loop iteration is a pure step
function on an explicit state.
-/

namespace MonsoonAsync

/-- Python slice index resolution: a slice bound `n` on a list of length
`len` denotes `min n len` when `n ≥ 0` and `len + n` (clamped at 0)
when `n < 0`. -/
def pyIdx (len : Nat) (n : Int) : Nat :=
  if n < 0 then ((len : Int) + n).toNat else min n.toNat len

/-- Python `l[:n]`. -/
def pyTake {α : Type} (l : List α) (n : Int) : List α :=
  l.take (pyIdx l.length n)

/-- Python `l[n:]`. -/
def pyDrop {α : Type} (l : List α) (n : Int) : List α :=
  l.drop (pyIdx l.length n)

/-- Line 88: `need = int((native_hz - offset + sample_hz - 1) / sample_hz)`.
Python `/` is exact true division here and `int` truncates toward zero,
which is `Int.tdiv`.  Defined for `sample_hz ≠ 0`; the `sample_hz = 0`
case raises `ZeroDivisionError` and is modelled as a fault in the loop
step below. -/
def needInt (native_hz sample_hz offset : Int) : Int :=
  Int.tdiv (native_hz - offset + sample_hz - 1) sample_hz

/-- Lines 99–109: the inner `while offset >= native_hz` loop.  Each
iteration appends the (already computed) average `avg` to the values,
appends a freshly read `int(time.time())` (the `ticks`-th clock reading)
to the timestamps, decrements `offset` by `native_hz` and increments
`emitted`.  Terminates because `1 ≤ native_hz`. -/
def emitLoop (native_hz : Int) (hN : 1 ≤ native_hz) (avg : ℚ)
    (clock : Nat → Int) (offset : Int) (emitted : Nat)
    (values : List ℚ) (timestamps : List Int) (ticks : Nat) :
    Int × Nat × List ℚ × List Int × Nat :=
  if h : native_hz ≤ offset then
    emitLoop native_hz hN avg clock (offset - native_hz) (emitted + 1)
      (values ++ [avg]) (timestamps ++ [clock ticks]) (ticks + 1)
  else
    (offset, emitted, values, timestamps, ticks)
termination_by offset.toNat
decreasing_by
  simp_wf
  omega

/-- A response of `monsoon.mon.CollectData()` (line 90): either a batch of
raw samples (the empty batch signals end-of-stream, line 91) or an
unexpected exception raised by the driver. -/
inductive SourceResp : Type
  | batch (l : List ℚ)
  | raise

/-- The reason the `while` loop of lines 85–114 ended. -/
inductive ExitReason : Type
  | stopped
  | endOfStream
  | fault
deriving DecidableEq

/-- Monsoon driver calls issued by `_take_samples`, in program order. -/
inductive MonEvent : Type
  | getVoltage
  | stopDataCollection
  | getStatus
  | startDataCollection
  | collectData
deriving DecidableEq

/-- The external world of one `_take_samples` run: the stop `Event` as
observed at the top of each loop iteration, the stream of `CollectData`
responses, the stream of `int(time.time())` readings, the voltage and
status reported by the device, and whether the final `MonsoonData`
construction succeeds. -/
structure Env : Type where
  stopAt : Nat → Bool
  batches : Nat → SourceResp
  clock : Nat → Int
  voltage : ℚ
  sampleRateKHz : Int
  assembleOk : Bool

/-- The loop-local state at the top of an iteration of lines 85–114.
`consumed` is the ghost count of raw samples consumed by emissions,
named in the invariant comment of lines 72–76; `calls` counts
`CollectData` calls, `ticks` counts `time.time()` reads, and `iter`
counts loop iterations (observations of the stop flag). -/
structure LoopState : Type where
  offset : Int
  emitted : Nat
  consumed : Int
  collected : List ℚ
  values : List ℚ
  timestamps : List Int
  calls : Nat
  ticks : Nat
  iter : Nat
deriving DecidableEq

/-- Line 77–84: `emitted = offset = 0`, empty buffers, and one
`time.time()` read for `last_flush`. -/
def initState : LoopState :=
  { offset := 0, emitted := 0, consumed := 0, collected := [],
    values := [], timestamps := [], calls := 0, ticks := 1, iter := 0 }

/-- Result of one iteration: either the loop exits (state as left behind),
or it continues at the top with a new state. -/
inductive StepRes : Type
  | exit (r : ExitReason) (s : LoopState)
  | cont (s : LoopState)
deriving DecidableEq

/-- One iteration of the `while not self._please_stop.is_set()` loop
(lines 85–114) with `native_hz = N` and `sample_hz = R`:

* line 85: if the stop event is set, leave the loop;
* line 88: compute `need`; with `R = 0` the division raises
  `ZeroDivisionError`, caught at line 115 — a fault exit;
* lines 89–93: if fewer than `need` samples are pending, call
  `CollectData`; a driver exception is a fault exit, an empty batch
  breaks out of the loop, otherwise the batch is appended;
* lines 94–114: otherwise advance `offset` by `need * R`, run the
  emission loop (`sum(collected[:need]) / need` raises
  `ZeroDivisionError` if it executes with `need = 0`), drop the first
  `need` pending samples, and read `time.time()` once for the flush
  check (line 111). -/
def loopStep (N R : Int) (hN : 1 ≤ N) (env : Env) (s : LoopState) : StepRes :=
  if env.stopAt s.iter then .exit .stopped s
  else if R = 0 then .exit .fault s
  else
    let need := needInt N R s.offset
    if (s.collected.length : Int) < need then
      match env.batches s.calls with
      | .raise => .exit .fault { s with calls := s.calls + 1 }
      | .batch [] => .exit .endOfStream { s with calls := s.calls + 1 }
      | .batch l =>
          .cont { s with collected := s.collected ++ l,
                         calls := s.calls + 1, iter := s.iter + 1 }
    else
      if need = 0 ∧ N ≤ s.offset + need * R then .exit .fault s
      else
        let avg : ℚ := (pyTake s.collected need).sum / (need : ℚ)
        let out := emitLoop N hN avg env.clock (s.offset + need * R)
          s.emitted s.values s.timestamps s.ticks
        .cont { offset := out.1, emitted := out.2.1,
                consumed := s.consumed + need,
                collected := pyDrop s.collected need,
                values := out.2.2.1, timestamps := out.2.2.2.1,
                calls := s.calls, ticks := out.2.2.2.2 + 1,
                iter := s.iter + 1 }

/-- Run the loop for at most `fuel` iterations.  Returns the exit reason
(`none` while the loop is still running) and the state: on exit the state
left behind, on `none` the state at the top of the next iteration. -/
def runLoop (N R : Int) (hN : 1 ≤ N) (env : Env) :
    Nat → LoopState → Option ExitReason × LoopState
  | 0, s => (none, s)
  | fuel + 1, s =>
    match loopStep N R hN env s with
    | .exit r s' => (some r, s')
    | .cont s' => runLoop N R hN env fuel s'

/-- Modelled from the spec: `MonsoonData` (the Result Assembler,
`physalia.third_party.monsoon.MonsoonData`, whose code is not under
`src/`) is an opaque container built from the value series, the
timestamp series, the output rate, the voltage and the caller-supplied
trim offset; its construction may fail, which line 126–127 turns into
`self.data = None`.  Whether construction succeeds is taken from the
environment (`Env.assembleOk`). -/
structure MonsoonData : Type where
  current_values : List ℚ
  timestamps : List Int
  hz : Int
  voltage : ℚ
  offset : Int
deriving DecidableEq

/-- The result of one completed `_take_samples` run: the Monsoon driver
calls issued (in order), the loop exit reason, the series accumulated
when the loop ended, and the assembled `self.data`. -/
structure TSResult : Type where
  trace : List MonEvent
  exit : ExitReason
  values : List ℚ
  timestamps : List Int
  data : Option MonsoonData

/-- Function `_take_samples` (lines 41–127) for a device whose status reports a
positive native rate.  Lines 59–70 read the voltage, stop then restart
data collection and derive `native_hz`; lines 83–114 run the collection
loop (here with at most `fuel` iterations — `none` means the loop is
still running and the function has not returned); line 117
unconditionally issues `StopDataCollection`; lines 118–127 build
`MonsoonData` from the accumulated series, storing `None` if the
construction raises. -/
def takeSamples (sample_hz sample_offset : Int) (env : Env)
    (hN : 1 ≤ env.sampleRateKHz * 1000) (fuel : Nat) : Option TSResult :=
  let native_hz := env.sampleRateKHz * 1000
  match runLoop native_hz sample_hz hN env fuel initState with
  | (none, _) => none
  | (some r, s) =>
    some { trace := [.getVoltage, .stopDataCollection, .getStatus,
                     .startDataCollection]
             ++ List.replicate s.calls .collectData
             ++ [.stopDataCollection],
           exit := r,
           values := s.values,
           timestamps := s.timestamps,
           data := if env.assembleOk then
               some { current_values := s.values, timestamps := s.timestamps,
                      hz := sample_hz, voltage := env.voltage,
                      offset := sample_offset }
             else none }

/-- The `MonsoonReader` object state: the fields assigned by
`__init__` (lines 17–24).  The stop `Event` is represented by the
environment's `stopAt` stream, not stored here. -/
structure MonsoonReader : Type where
  sample_hz : Int
  sample_offset : Int
  live : Bool
  data : Option MonsoonData
deriving DecidableEq

/-- Constructor `MonsoonReader.__init__` (lines 17–24): stores the requested
`sample_hz`, `sample_offset` and `live` unchecked and sets
`self.data = None`.  It is total — no configuration validation is
performed, so construction (and hence `start()`, inherited unchanged
from `Thread`) never fails. -/
def MonsoonReader.init (sample_hz sample_offset : Int) (live : Bool) :
    MonsoonReader :=
  { sample_hz := sample_hz, sample_offset := sample_offset,
    live := live, data := none }

/-- Method `MonsoonReader.run` (lines 26–33) as observed once the worker thread
finishes: `_take_samples` stores its result into `self.data`. -/
def MonsoonReader.runWorker (m : MonsoonReader) (env : Env)
    (hN : 1 ≤ env.sampleRateKHz * 1000) (fuel : Nat) : Option MonsoonReader :=
  match takeSamples m.sample_hz m.sample_offset env hN fuel with
  | none => none
  | some res => some { m with data := res.data }

/-! ## Arithmetic facts about the `need` computation -/

lemma needInt_eq_ediv (N R offset : Int) (hR : 1 ≤ R) (h0 : 0 ≤ offset)
    (hlt : offset < N) :
    needInt N R offset = (N - offset + R - 1) / R := by
  unfold needInt
  exact Int.tdiv_eq_ediv (by omega) (by omega)

lemma needInt_mul_bounds (N R offset : Int) (hR : 1 ≤ R) (h0 : 0 ≤ offset)
    (hlt : offset < N) :
    N - offset ≤ needInt N R offset * R ∧
      needInt N R offset * R < N - offset + R := by
  rw [needInt_eq_ediv N R offset hR h0 hlt, Int.mul_comm]
  have h1 := Int.ediv_add_emod (N - offset + R - 1) R
  have h2 := Int.emod_nonneg (N - offset + R - 1) (by omega : R ≠ 0)
  have h3 := Int.emod_lt_of_pos (N - offset + R - 1) (by omega : 0 < R)
  have h4 : (N - offset + R - 1) % R ≤ R - 1 := by omega
  constructor <;> linarith

lemma needInt_pos (N R offset : Int) (hR : 1 ≤ R) (h0 : 0 ≤ offset)
    (hlt : offset < N) : 1 ≤ needInt N R offset := by
  rw [needInt_eq_ediv N R offset hR h0 hlt]
  rw [Int.le_ediv_iff_mul_le (by omega : (0 : Int) < R)]
  omega

/-- C2: The `need` computation of line 88,
`int((native_hz - offset + sample_hz - 1) / sample_hz)`, is exactly
ceiling division: for all `NativeRate ≥ 1`, `OutputRate ≥ 1` and
`0 ≤ offset < NativeRate` it returns `⌈(NativeRate − offset) / OutputRate⌉`,
never a truncating under-count. -/
theorem need_is_ceiling_division (N R offset : Int) (hN : 1 ≤ N)
    (hR : 1 ≤ R) (h0 : 0 ≤ offset) (hlt : offset < N) :
    needInt N R offset = ⌈((N : ℚ) - (offset : ℚ)) / (R : ℚ)⌉ := by
  have hb := needInt_mul_bounds N R offset hR h0 hlt
  have hRQ : (0 : ℚ) < (R : ℚ) := by exact_mod_cast (by omega : (0 : Int) < R)
  symm
  rw [Int.ceil_eq_iff]
  constructor
  · rw [lt_div_iff₀ hRQ]
    have : (needInt N R offset - 1) * R < N - offset := by linarith [hb.2]
    calc ((needInt N R offset : ℚ) - 1) * (R : ℚ)
        = (((needInt N R offset - 1) * R : Int) : ℚ) := by push_cast; ring
      _ < (N : ℚ) - (offset : ℚ) := by exact_mod_cast this
  · rw [div_le_iff₀ hRQ]
    calc (N : ℚ) - (offset : ℚ) = (((N - offset : Int)) : ℚ) := by push_cast; ring
      _ ≤ ((needInt N R offset * R : Int) : ℚ) := by exact_mod_cast hb.1
      _ = (needInt N R offset : ℚ) * (R : ℚ) := by push_cast; ring

/-- C2 witness -/
theorem need_is_ceiling_division_witness :
    needInt 5000 3 1 = ⌈((5000 : ℚ) - (1 : ℚ)) / (3 : ℚ)⌉ :=
  need_is_ceiling_division 5000 3 1 (by decide) (by decide) (by decide)
    (by decide)

/-- C3: Whenever `1 ≤ OutputRate ≤ NativeRate` and `0 ≤ offset < NativeRate`,
the computed `need` is at least 1, so the averaging division
`sum(collected[:need]) / need` of line 101 never has a zero divisor. -/
theorem need_at_least_one (N R offset : Int) (hR : 1 ≤ R) (hRN : R ≤ N)
    (h0 : 0 ≤ offset) (hlt : offset < N) :
    1 ≤ needInt N R offset ∧ ((needInt N R offset : Int) : ℚ) ≠ 0 := by
  have h := needInt_pos N R offset hR h0 hlt
  refine ⟨h, ?_⟩
  have : (0 : Int) < needInt N R offset := by omega
  exact_mod_cast this.ne'

/-- C3 witness -/
theorem need_at_least_one_witness :
    1 ≤ needInt 5000 5 4999 ∧ ((needInt 5000 5 4999 : Int) : ℚ) ≠ 0 :=
  need_at_least_one 5000 5 4999 (by decide) (by decide) (by decide) (by decide)

/-! ## Characterisation of the inner emission loop -/

/-- The inner `while offset >= native_hz` loop performs some number `k`
of emissions: it replicates the one averaged value `k` times, appends `k`
freshly read timestamps (clock readings `ticks, ticks+1, …`), subtracts
`native_hz` from `offset` `k` times, and `k ≥ 1` exactly when the loop
was entered. -/
lemma emitLoop_spec (N : Int) (hN : 1 ≤ N) (avg : ℚ) (clock : Nat → Int)
    (offset : Int) (emitted : Nat) (values : List ℚ)
    (timestamps : List Int) (ticks : Nat) :
    ∃ k : Nat,
      emitLoop N hN avg clock offset emitted values timestamps ticks =
        (offset - k * N, emitted + k,
         values ++ List.replicate k avg,
         timestamps ++ (List.range k).map (fun j => clock (ticks + j)),
         ticks + k) ∧
      offset - k * N < N ∧
      (N ≤ offset → 1 ≤ k) ∧
      (0 ≤ offset → 0 ≤ offset - k * N) := by
  induction offset, emitted, values, timestamps, ticks
    using emitLoop.induct N hN avg clock with
  | case1 offset emitted values timestamps ticks h ih =>
    obtain ⟨k, hRun, hLt, _, hNn⟩ := ih
    have hcast : ((k + 1 : Nat) : Int) * N = (k : Int) * N + N := by
      push_cast
      ring
    refine ⟨k + 1, ?_, by omega, fun _ => by omega, fun _ => ?_⟩
    · rw [emitLoop, dif_pos h, hRun]
      have h1 : offset - N - (k : Int) * N = offset - ((k + 1 : Nat) : Int) * N := by
        omega
      have h2 : emitted + 1 + k = emitted + (k + 1) := by omega
      have h3 : values ++ [avg] ++ List.replicate k avg =
          values ++ List.replicate (k + 1) avg := by
        simp [List.replicate_succ, List.append_assoc]
      have h4 : timestamps ++ [clock ticks]
            ++ (List.range k).map (fun j => clock (ticks + 1 + j)) =
          timestamps ++ (List.range (k + 1)).map (fun j => clock (ticks + j)) := by
        rw [List.range_succ_eq_map, List.append_assoc]
        simp only [List.map_cons, List.map_map, List.cons_append,
          List.nil_append, Nat.add_zero]
        congr 2
        refine List.map_congr_left fun a _ => ?_
        simp only [Function.comp_apply]
        congr 1
        omega
      have h5 : ticks + 1 + k = ticks + (k + 1) := by omega
      rw [h1, h2, h3, h4, h5]
    · have := hNn (by omega)
      omega
  | case2 offset emitted values timestamps ticks h =>
    have hz : ((0 : Nat) : Int) * N = 0 := by simp
    refine ⟨0, ?_, by omega, fun hc => absurd hc h, fun h0 => by omega⟩
    rw [emitLoop, dif_neg h]
    simp

/-- What the emission branch (lines 94–114) of one loop iteration does,
for any state with `0 ≤ offset < native_hz` whose pending buffer holds at
least `need` samples: some `k ≥ 1` output samples are produced, all equal
to the average of the first `need` pending samples, with `k` successive
fresh clock readings as timestamps, and the first `need` pending samples
are dropped exactly once. -/
lemma loopStep_emit (N R : Int) (hN : 1 ≤ N) (hR : 1 ≤ R) (env : Env)
    (s : LoopState) (hstop : env.stopAt s.iter = false)
    (h0 : 0 ≤ s.offset) (hlt : s.offset < N)
    (hbuf : needInt N R s.offset ≤ (s.collected.length : Int)) :
    ∃ k : Nat, 1 ≤ k ∧
      loopStep N R hN env s = .cont
        { offset := s.offset + needInt N R s.offset * R - k * N,
          emitted := s.emitted + k,
          consumed := s.consumed + needInt N R s.offset,
          collected := pyDrop s.collected (needInt N R s.offset),
          values := s.values ++ List.replicate k
            ((pyTake s.collected (needInt N R s.offset)).sum /
              ((needInt N R s.offset : Int) : ℚ)),
          timestamps := s.timestamps ++
            (List.range k).map (fun j => env.clock (s.ticks + j)),
          calls := s.calls, ticks := s.ticks + k + 1, iter := s.iter + 1 } ∧
      0 ≤ s.offset + needInt N R s.offset * R - k * N ∧
      s.offset + needInt N R s.offset * R - k * N < N ∧
      N ≤ s.offset + needInt N R s.offset * R := by
  have hneed := needInt_pos N R s.offset hR h0 hlt
  have hb := needInt_mul_bounds N R s.offset hR h0 hlt
  have hentry : N ≤ s.offset + needInt N R s.offset * R := by
    have := hb.1
    omega
  have hpos : 0 ≤ s.offset + needInt N R s.offset * R := by
    have := hb.1
    omega
  obtain ⟨k, hRun, hLt, hGe1, hNn⟩ := emitLoop_spec N hN
    ((pyTake s.collected (needInt N R s.offset)).sum /
      ((needInt N R s.offset : Int) : ℚ))
    env.clock (s.offset + needInt N R s.offset * R) s.emitted s.values
    s.timestamps s.ticks
  have hR0 : ¬ R = 0 := by omega
  have hnlt : ¬ ((s.collected.length : Int) < needInt N R s.offset) :=
    not_lt.mpr hbuf
  have hne : ¬ (needInt N R s.offset = 0 ∧
      N ≤ s.offset + needInt N R s.offset * R) := by
    rintro ⟨h', _⟩
    omega
  refine ⟨k, hGe1 hentry, ?_, hNn hpos, hLt, hentry⟩
  simp only [loopStep, hstop, Bool.false_eq_true, if_false, hR0, hnlt, hne,
    ite_false, hRun]

/-- The accumulator invariant stated in the comment of lines 72–76:
at the top of each loop iteration,
`offset = consumed * sample_hz − emitted * native_hz` and
`0 ≤ offset < native_hz`. -/
def Inv (N R : Int) (s : LoopState) : Prop :=
  s.offset = s.consumed * R - (s.emitted : Int) * N ∧
    0 ≤ s.offset ∧ s.offset < N

instance (N R : Int) (s : LoopState) : Decidable (Inv N R s) := by
  unfold Inv
  infer_instance

/-- One loop iteration that continues preserves the accumulator
invariant. -/
lemma loopStep_preserves_inv (N R : Int) (hN : 1 ≤ N) (hR : 1 ≤ R)
    (env : Env) (s s' : LoopState) (hInv : Inv N R s)
    (hstep : loopStep N R hN env s = .cont s') : Inv N R s' := by
  obtain ⟨hEq, h0, hlt⟩ := hInv
  by_cases hs : env.stopAt s.iter
  · simp [loopStep, hs] at hstep
  · have hsf : env.stopAt s.iter = false := by
      simpa using hs
    have hR0 : ¬ R = 0 := by omega
    by_cases hb : (s.collected.length : Int) < needInt N R s.offset
    · rcases hbatch : env.batches s.calls with l | _
      · rcases l with _ | ⟨x, xs⟩
        · simp [loopStep, hsf, hR0, hb, hbatch] at hstep
        · simp only [loopStep, hsf, Bool.false_eq_true, if_false, hR0, hb,
            ite_true, if_true, hbatch, StepRes.cont.injEq, ite_false] at hstep
          subst hstep
          exact ⟨hEq, h0, hlt⟩
      · simp [loopStep, hsf, hR0, hb, hbatch] at hstep
    · obtain ⟨k, hk, heq, hge0, hltN, _⟩ :=
        loopStep_emit N R hN hR env s hsf h0 hlt (not_lt.mp hb)
      rw [heq] at hstep
      injection hstep with hstep
      subst hstep
      refine ⟨?_, hge0, hltN⟩
      push_cast
      linear_combination hEq

/-- While the loop is still running, the state at the top of the current
iteration satisfies the accumulator invariant whenever the start state
did. -/
lemma runLoop_preserves_inv (N R : Int) (hN : 1 ≤ N) (hR : 1 ≤ R)
    (env : Env) :
    ∀ (fuel : Nat) (s : LoopState), Inv N R s →
      (runLoop N R hN env fuel s).1 = none →
      Inv N R (runLoop N R hN env fuel s).2 := by
  intro fuel
  induction fuel with
  | zero => intro s hInv _; exact hInv
  | succ n ih =>
    intro s hInv hrun
    rcases hstep : loopStep N R hN env s with ⟨r, s'⟩ | s'
    · rw [runLoop, hstep] at hrun
      simp at hrun
    · rw [runLoop, hstep] at hrun ⊢
      exact ih s' (loopStep_preserves_inv N R hN hR env s s' hInv hstep) hrun

/-- C1: For all `NativeRate ≥ 1` and `OutputRate ≥ 1`, starting from
`offset = 0` with nothing consumed or emitted, every state reachable at
the top of a loop iteration satisfies
`offset = consumed_raw_samples * OutputRate − emitted_output_samples * NativeRate`
and `0 ≤ offset < NativeRate`. -/
theorem offset_invariant_reachable (N R : Int) (hN : 1 ≤ N) (hR : 1 ≤ R)
    (env : Env) (fuel : Nat)
    (hrun : (runLoop N R hN env fuel initState).1 = none) :
    Inv N R (runLoop N R hN env fuel initState).2 := by
  refine runLoop_preserves_inv N R hN hR env fuel initState ?_ hrun
  refine ⟨by simp [initState], by simp [initState], by simp [initState]; omega⟩

/-- C1 witness -/
theorem offset_invariant_reachable_witness :
    Inv 5000 5 (runLoop 5000 5 (by decide)
      ⟨fun _ => false, fun _ => .batch [1], fun _ => 0, 1, 5, true⟩
      0 initState).2 :=
  offset_invariant_reachable 5000 5 (by decide) (by decide)
    ⟨fun _ => false, fun _ => .batch [1], fun _ => 0, 1, 5, true⟩ 0 rfl

/-- C4: When the emission branch runs, the inner `while` loop emits
`k ≥ 1` output samples that all carry the same averaged value — the
arithmetic mean `sum(collected[:need]) / need` of the first `need`
pending samples — each with its own freshly read timestamp (successive
clock readings), and exactly the first `need` pending samples are dropped
from the buffer, once, after the emission loop, regardless of `k`. -/
theorem multi_emit_same_value_fresh_timestamps (N R : Int) (hN : 1 ≤ N)
    (hR : 1 ≤ R) (env : Env) (s : LoopState)
    (hstop : env.stopAt s.iter = false) (h0 : 0 ≤ s.offset)
    (hlt : s.offset < N)
    (hbuf : needInt N R s.offset ≤ (s.collected.length : Int)) :
    ∃ (k : Nat) (s' : LoopState), 1 ≤ k ∧
      loopStep N R hN env s = .cont s' ∧
      s'.values = s.values ++ List.replicate k
        ((pyTake s.collected (needInt N R s.offset)).sum /
          ((needInt N R s.offset : Int) : ℚ)) ∧
      s'.timestamps = s.timestamps ++
        (List.range k).map (fun j => env.clock (s.ticks + j)) ∧
      s'.collected = pyDrop s.collected (needInt N R s.offset) := by
  obtain ⟨k, hk, heq, -, -, -⟩ := loopStep_emit N R hN hR env s hstop h0 hlt hbuf
  exact ⟨k, _, hk, heq, rfl, rfl, rfl⟩

/-- C4 witness: `NativeRate = 2`, `OutputRate = 5` with one pending
sample triggers the multi-emit branch. -/
theorem multi_emit_same_value_fresh_timestamps_witness :
    ∃ (k : Nat) (s' : LoopState), 1 ≤ k ∧
      loopStep 2 5 (by decide)
        ⟨fun _ => false, fun _ => .batch [], fun _ => 0, 1, 1, true⟩
        ⟨0, 0, 0, [4], [], [], 0, 1, 0⟩ = .cont s' ∧
      s'.values = [] ++ List.replicate k
        ((pyTake ([4] : List ℚ) (needInt 2 5 0)).sum /
          ((needInt 2 5 0 : Int) : ℚ)) ∧
      s'.timestamps = [] ++ (List.range k).map
        (fun j => (⟨fun _ => false, fun _ => .batch [], fun _ => 0, 1, 1,
          true⟩ : Env).clock (1 + j)) ∧
      s'.collected = pyDrop ([4] : List ℚ) (needInt 2 5 0) :=
  multi_emit_same_value_fresh_timestamps 2 5 (by decide) (by decide)
    ⟨fun _ => false, fun _ => .batch [], fun _ => 0, 1, 1, true⟩
    ⟨0, 0, 0, [4], [], [], 0, 1, 0⟩ rfl (by decide) (by decide) (by decide)

/-- C10: Whenever the emission branch is taken from a state with
`0 ≤ offset < NativeRate` and `OutputRate ≥ 1`, the update
`offset += need * OutputRate` pushes `offset` to at least `NativeRate`,
so at least one output sample is emitted — pending samples are never
dropped without producing output — and the values and timestamps lists
grow in lockstep, staying equal in length. -/
theorem emission_never_silently_drops (N R : Int) (hN : 1 ≤ N)
    (hR : 1 ≤ R) (env : Env) (s : LoopState)
    (hstop : env.stopAt s.iter = false) (h0 : 0 ≤ s.offset)
    (hlt : s.offset < N)
    (hbuf : needInt N R s.offset ≤ (s.collected.length : Int))
    (hlen : s.values.length = s.timestamps.length) :
    N ≤ s.offset + needInt N R s.offset * R ∧
    ∃ (k : Nat) (s' : LoopState), 1 ≤ k ∧
      loopStep N R hN env s = .cont s' ∧
      s'.values.length = s.values.length + k ∧
      s'.timestamps.length = s.timestamps.length + k ∧
      s'.values.length = s'.timestamps.length := by
  obtain ⟨k, hk, heq, -, -, hentry⟩ :=
    loopStep_emit N R hN hR env s hstop h0 hlt hbuf
  refine ⟨hentry, k, _, hk, heq, ?_, ?_, ?_⟩ <;>
    simp [List.length_append, List.length_replicate, List.length_map,
      List.length_range, hlen]

/-- C10 witness -/
theorem emission_never_silently_drops_witness :
    (2 : Int) ≤ 0 + needInt 2 5 0 * 5 ∧
    ∃ (k : Nat) (s' : LoopState), 1 ≤ k ∧
      loopStep 2 5 (by decide)
        ⟨fun _ => false, fun _ => .batch [], fun _ => 0, 1, 1, true⟩
        ⟨0, 0, 0, [4], [], [], 0, 1, 0⟩ = .cont s' ∧
      s'.values.length = ([] : List ℚ).length + k ∧
      s'.timestamps.length = ([] : List Int).length + k ∧
      s'.values.length = s'.timestamps.length := by
  have h := emission_never_silently_drops 2 5 (by decide) (by decide)
    ⟨fun _ => false, fun _ => .batch [], fun _ => 0, 1, 1, true⟩
    ⟨0, 0, 0, [4], [], [], 0, 1, 0⟩ rfl (by decide) (by decide) (by decide)
    rfl
  exact h

/-- C7: Once the stop flag is observed set at the top of a loop
iteration, the loop exits immediately with reason `stopped`, leaving the
state — in particular the series of emitted values and timestamps —
untouched: after `stop()` (which sets the flag and then joins the
worker), no further output samples are appended beyond the iteration
already in progress. -/
theorem stop_flag_freezes_series (N R : Int) (hN : 1 ≤ N) (env : Env)
    (s : LoopState) (fuel : Nat) (hstop : env.stopAt s.iter = true)
    (hfuel : 1 ≤ fuel) :
    runLoop N R hN env fuel s = (some .stopped, s) ∧
      (runLoop N R hN env fuel s).2.values = s.values ∧
      (runLoop N R hN env fuel s).2.timestamps = s.timestamps := by
  obtain ⟨f, rfl⟩ : ∃ f, fuel = f + 1 := ⟨fuel - 1, by omega⟩
  have : runLoop N R hN env (f + 1) s = (some .stopped, s) := by
    rw [runLoop]
    simp [loopStep, hstop]
  exact ⟨this, by rw [this], by rw [this]⟩

/-- C7 witness -/
theorem stop_flag_freezes_series_witness :
    runLoop 5000 5 (by decide)
        ⟨fun _ => true, fun _ => .batch [1], fun _ => 0, 1, 5, true⟩
        1 initState = (some .stopped, initState) ∧
      (runLoop 5000 5 (by decide)
        ⟨fun _ => true, fun _ => .batch [1], fun _ => 0, 1, 5, true⟩
        1 initState).2.values = initState.values ∧
      (runLoop 5000 5 (by decide)
        ⟨fun _ => true, fun _ => .batch [1], fun _ => 0, 1, 5, true⟩
        1 initState).2.timestamps = initState.timestamps :=
  stop_flag_freezes_series 5000 5 (by decide)
    ⟨fun _ => true, fun _ => .batch [1], fun _ => 0, 1, 5, true⟩
    initState 1 rfl (by decide)

/-- C8: Whenever `_take_samples` returns — whatever the loop exit reason
(cancellation, end-of-stream, or a caught fault) — the last Monsoon
driver call in its trace is the unconditional `StopDataCollection`
cleanup of line 117. -/
theorem stop_collection_on_every_exit (R soff : Int) (env : Env)
    (hN : 1 ≤ env.sampleRateKHz * 1000) (fuel : Nat) (res : TSResult)
    (h : takeSamples R soff env hN fuel = some res) :
    res.trace.getLast? = some .stopDataCollection := by
  rcases hr : runLoop (env.sampleRateKHz * 1000) R hN env fuel initState
    with ⟨o, s⟩
  simp only [takeSamples] at h
  rw [hr] at h
  cases o with
  | none => exact absurd h (by simp)
  | some r =>
    rw [Option.some_inj] at h
    subst h
    simp only [List.append_assoc, List.cons_append, List.nil_append]
    rw [← List.cons_append, ← List.cons_append, ← List.cons_append,
      ← List.cons_append, List.getLast?_concat]

/-- C8 witness -/
theorem stop_collection_on_every_exit_witness :
    ∃ res : TSResult,
      takeSamples 5 0
          ⟨fun _ => false, fun _ => .batch [], fun _ => 0, 1, 5, true⟩
          (by decide) 1 = some res ∧
      res.trace.getLast? = some .stopDataCollection := by
  refine ⟨_, rfl, ?_⟩
  exact stop_collection_on_every_exit 5 0
    ⟨fun _ => false, fun _ => .batch [], fun _ => 0, 1, 5, true⟩
    (by decide) 1 _ rfl

/-- C6: An unexpected exception inside the collection loop (from pulling
samples or averaging) makes the run terminate early with exit reason
`fault`; `_take_samples` still returns normally, the values and
timestamps collected so far are preserved and handed to the `MonsoonData`
assembler, and no exception propagates to the caller. -/
theorem collection_fault_contained (R soff : Int) (env : Env)
    (hN : 1 ≤ env.sampleRateKHz * 1000) (fuel : Nat) (s : LoopState)
    (hrun : runLoop (env.sampleRateKHz * 1000) R hN env fuel initState =
      (some .fault, s)) :
    ∃ res, takeSamples R soff env hN fuel = some res ∧
      res.exit = .fault ∧
      res.values = s.values ∧ res.timestamps = s.timestamps ∧
      res.data = (if env.assembleOk then
          some ⟨s.values, s.timestamps, R, env.voltage, soff⟩
        else none) := by
  refine ⟨{ trace := [.getVoltage, .stopDataCollection, .getStatus,
              .startDataCollection]
              ++ List.replicate s.calls .collectData ++ [.stopDataCollection],
            exit := .fault, values := s.values, timestamps := s.timestamps,
            data := if env.assembleOk then
                some ⟨s.values, s.timestamps, R, env.voltage, soff⟩
              else none },
          ?_, rfl, rfl, rfl, rfl⟩
  simp only [takeSamples]
  rw [hrun]

/-- C6 witness: the driver raises on the first `CollectData`. -/
theorem collection_fault_contained_witness :
    ∃ res, takeSamples 5 0
        ⟨fun _ => false, fun _ => .raise, fun _ => 0, 1, 5, true⟩
        (by decide) 1 = some res ∧
      res.exit = .fault ∧
      res.values = LoopState.values ⟨0, 0, 0, [], [], [], 1, 1, 0⟩ ∧
      res.timestamps = LoopState.timestamps ⟨0, 0, 0, [], [], [], 1, 1, 0⟩ ∧
      res.data = (if (⟨fun _ => false, fun _ => .raise, fun _ => 0, 1, 5,
          true⟩ : Env).assembleOk then
          some ⟨[], [], 5, 1, 0⟩
        else none) :=
  collection_fault_contained 5 0
    ⟨fun _ => false, fun _ => .raise, fun _ => 0, 1, 5, true⟩
    (by decide) 1 ⟨0, 0, 0, [], [], [], 1, 1, 0⟩ (by decide)

/-- C9: If the source's first `CollectData` call returns an empty batch,
the loop ends immediately with end-of-stream and an empty series, and
when the result assembler's construction then fails, `_take_samples`
returns normally with `data = None` instead of raising. -/
theorem empty_first_batch_absent_result (R soff : Int) (env : Env)
    (hN : 1 ≤ env.sampleRateKHz * 1000) (fuel : Nat) (hR : 1 ≤ R)
    (hfuel : 1 ≤ fuel) (hstop : env.stopAt 0 = false)
    (hbatch : env.batches 0 = .batch [])
    (hasm : env.assembleOk = false) :
    ∃ res, takeSamples R soff env hN fuel = some res ∧
      res.exit = .endOfStream ∧ res.values = [] ∧ res.timestamps = [] ∧
      res.data = none := by
  obtain ⟨f, rfl⟩ : ∃ f, fuel = f + 1 := ⟨fuel - 1, by omega⟩
  have hR0 : ¬ R = 0 := by omega
  have hneed : 1 ≤ needInt (env.sampleRateKHz * 1000) R 0 :=
    needInt_pos _ R 0 hR le_rfl (by omega)
  have h0lt : (0 : Int) < needInt (env.sampleRateKHz * 1000) R 0 := by
    omega
  have hstep : loopStep (env.sampleRateKHz * 1000) R hN env initState =
      .exit .endOfStream { initState with calls := 1 } := by
    simp [loopStep, initState, hstop, hR0, hbatch, h0lt]
  have hrun : runLoop (env.sampleRateKHz * 1000) R hN env (f + 1)
      initState = (some .endOfStream, { initState with calls := 1 }) := by
    rw [runLoop, hstep]
  simp only [takeSamples]
  rw [hrun]
  exact ⟨_, rfl, rfl, rfl, rfl, by simp [hasm]⟩

/-- C9 witness -/
theorem empty_first_batch_absent_result_witness :
    ∃ res, takeSamples 5 0
        ⟨fun _ => false, fun _ => .batch [], fun _ => 0, 1, 5, false⟩
        (by decide) 1 = some res ∧
      res.exit = .endOfStream ∧ res.values = [] ∧ res.timestamps = [] ∧
      res.data = none :=
  empty_first_batch_absent_result 5 0
    ⟨fun _ => false, fun _ => .batch [], fun _ => 0, 1, 5, false⟩
    (by decide) 1 (by decide) (by decide) rfl rfl rfl

/-- C5 counterexample: with requested `sample_hz = 0`, construction
succeeds — `__init__` stores the rate unchecked and `start()` (inherited
unchanged from `Thread`) spawns the worker normally, so nothing fails
before the thread starts — while the very first loop iteration hits the
`ZeroDivisionError` of line 88: the invalid configuration is discovered
mid-run via a division fault, contradicting the claim. -/
theorem zero_rate_accepted_at_start :
    MonsoonReader.init 0 0 false =
      { sample_hz := 0, sample_offset := 0, live := false, data := none } ∧
    loopStep 1000 0 (by decide)
      ⟨fun _ => false, fun _ => .batch [], fun _ => 0, 1, 1, true⟩
      initState = .exit .fault initState :=
  ⟨rfl, rfl⟩

/-- C5 amended: the code performs no configuration validation:
`__init__`/`start()` accept a non-positive `sample_hz` as-is, and with
`sample_hz = 0` the first `need` computation inside the loop raises a
division fault, which the broad `except` of line 115 catches — the run
terminates mid-run with exit reason `fault`, an empty series, and the
`StopDataCollection` cleanup still issued; no `InvalidConfiguration`
error exists and nothing is reported at `start()`. -/
theorem zero_rate_faults_mid_run (soff : Int) (env : Env)
    (hN : 1 ≤ env.sampleRateKHz * 1000) (fuel : Nat) (hfuel : 1 ≤ fuel)
    (hstop : env.stopAt 0 = false) :
    MonsoonReader.init 0 soff false =
      { sample_hz := 0, sample_offset := soff, live := false,
        data := none } ∧
    ∃ res, takeSamples 0 soff env hN fuel = some res ∧
      res.exit = .fault ∧ res.values = [] ∧ res.timestamps = [] ∧
      res.trace.getLast? = some .stopDataCollection := by
  refine ⟨rfl, ?_⟩
  obtain ⟨f, rfl⟩ : ∃ f, fuel = f + 1 := ⟨fuel - 1, by omega⟩
  have hstep : loopStep (env.sampleRateKHz * 1000) 0 hN env initState =
      .exit .fault initState := by
    simp [loopStep, initState, hstop]
  have hrun : runLoop (env.sampleRateKHz * 1000) 0 hN env (f + 1)
      initState = (some .fault, initState) := by
    rw [runLoop, hstep]
  simp only [takeSamples]
  rw [hrun]
  exact ⟨_, rfl, rfl, rfl, rfl, rfl⟩

/-- C5 amended witness -/
theorem zero_rate_faults_mid_run_witness :
    MonsoonReader.init 0 0 false =
      { sample_hz := 0, sample_offset := 0, live := false,
        data := none } ∧
    ∃ res, takeSamples 0 0
        ⟨fun _ => false, fun _ => .batch [], fun _ => 0, 1, 1, true⟩
        (by decide) 1 = some res ∧
      res.exit = .fault ∧ res.values = [] ∧ res.timestamps = [] ∧
      res.trace.getLast? = some .stopDataCollection :=
  zero_rate_faults_mid_run 0
    ⟨fun _ => false, fun _ => .batch [], fun _ => 0, 1, 1, true⟩
    (by decide) 1 (by decide) rfl

end MonsoonAsync
